import Mathlib

/-!
Verification of `core/src/apps/ethereum/layout.py` (Trezor Ethereum
confirmation layouts), as a shallow embedding.

Modelling conventions:
- Python strings are `List Char`, Python `bytes` are `List Nat`, Python
  `int` is `Int` (arbitrary precision, signed).
- External UI primitives (`confirm_output`, `confirm_amount`,
  `confirm_total`, `confirm_blob`, `confirm_text`, `should_show_more`) do
  not compute anything the layouts depend on; a layout function is embedded
  as the screen (or the sequence of screens) it sends to those primitives.
- Helpers imported from modules that are not part of the embedded source
  (`get_type_name`, `decode_typed_data`, `address_from_bytes` from
  `apps.ethereum.helpers`) are taken as parameters.
- `format_amount` and `format_plural` from `trezor.strings` are modelled
  from the spec (their doc comments say so).
-/

/-- Decimal digits of a natural number, most significant first, driven by a
`fuel` counter so the recursion is structural (`fuel = n + 1` always
suffices: the recursion divides by 10 each step). -/
def natDigitsAux : Nat → Nat → List Char
  | 0, _ => []
  | fuel + 1, n =>
    if n < 10 then [Nat.digitChar n]
    else natDigitsAux fuel (n / 10) ++ [Nat.digitChar (n % 10)]

/-- Decimal rendering of a natural number (Python `str(n)` for `n >= 0`). -/
def natRepr (n : Nat) : List Char :=
  natDigitsAux (n + 1) n

/-- Left-pad with `'0'` to `width` characters (Python `f"{d:0w}"` applied to
a number already rendered as `s`; never truncates). -/
def padZeros (width : Nat) (s : List Char) : List Char :=
  List.replicate (width - s.length) '0' ++ s

/-- Strip trailing `'0'` characters (Python `rstrip("0")`). -/
def dropTrailZeros (s : List Char) : List Char :=
  (s.reverse.dropWhile (fun c => c == '0')).reverse

/-- Modelled from the spec: the external numeric-formatting primitive
`format_amount` from `trezor.strings`, whose source is not under `src/`
(spec sections 4.1 and 6): exact fixed-point rendering of
`amount / 10^decimals` with `decimals` fractional digits, a leading `"-"`
for negative amounts, trailing fractional zeros stripped and the decimal
point dropped when the fraction strips to nothing (the stripping is pinned
by the spec section 8 example `format(2e18, 18 decimals) = "2 ETH"`). -/
def format_amount (amount : Int) (decimals : Nat) : List Char :=
  (if amount < 0 then ['-'] else []) ++
    natRepr (amount.natAbs / 10 ^ decimals) ++
    (if dropTrailZeros (padZeros decimals (natRepr (amount.natAbs % 10 ^ decimals))) = []
     then []
     else '.' :: dropTrailZeros (padZeros decimals (natRepr (amount.natAbs % 10 ^ decimals))))

/-- `trezor.messages.EthereumTokenInfo`, restricted to the fields the layout
module reads. -/
structure EthereumTokenInfo where
  symbol : List Char
  decimals : Nat
  deriving DecidableEq

/-- `trezor.messages.EthereumNetworkInfo`, restricted to the fields the
layout module reads. -/
structure EthereumNetworkInfo where
  symbol : List Char
  deriving DecidableEq

/-- `format_ethereum_amount` from `layout.py`: symbol and decimals come from
the token if one is given, else from the network with 18 decimals; when
`decimals > 9` and `value < 10^(decimals - 9)` the symbol is prefixed with
`"Wei "` and the value rendered with 0 decimals; the result is the rendered
amount, a space, and the suffix. -/
def format_ethereum_amount (value : Int) (token : Option EthereumTokenInfo)
    (network : EthereumNetworkInfo) : List Char :=
  let suffix := match token with
    | some t => t.symbol
    | none => network.symbol
  let decimals : Nat := match token with
    | some t => t.decimals
    | none => 18
  if decimals > 9 ∧ value < (10 : Int) ^ (decimals - 9) then
    format_amount value 0 ++ ' ' :: ("Wei ".data ++ suffix)
  else
    format_amount value decimals ++ ' ' :: suffix

/-- Python slice `s[-k:]` (for `k = 0` Python returns the whole string, not
the empty one). -/
def takeLast (s : List Char) (k : Nat) : List Char :=
  if k = 0 then s else s.drop (s.length - k)

/-- `limit_str` from `layout.py`: shorten a string to its last `limit`
characters behind a `".."` marker, leaving strings of length at most
`limit + 2` unchanged.  The Python default `limit = 16` is passed explicitly
by the call sites here. -/
def limit_str (s : List Char) (limit : Nat) : List Char :=
  if s.length ≤ limit + 2 then s
  else "..".data ++ takeLast s limit

/-- `trezor.enums.EthereumDataType`. -/
inductive EthereumDataType
  | UINT | INT | BYTES | STRING | BOOL | ADDRESS | ARRAY | STRUCT
  deriving DecidableEq

/-- `trezor.messages.EthereumFieldType`, restricted to the field the layout
module reads. -/
structure EthereumFieldType where
  data_type : EthereumDataType

/-- `trezor.messages.EthereumStructMember`, restricted to the field the
layout module reads. -/
structure EthereumStructMember where
  name : List Char

/-- The confirmation primitive a typed-data leaf is sent to: `confirm_blob`
(which takes an `ask_pagination` flag) or `confirm_text` (which takes none).
Argument order follows the call sites: br_type, title, data, description. -/
inductive TypedScreen
  | blob (br_type title data descr : List Char) (ask_pagination : Bool)
  | text (br_type title data descr : List Char)

/-- Title of the screen a typed-data leaf confirmation shows. -/
def TypedScreen.title : TypedScreen → List Char
  | .blob _ t _ _ _ => t
  | .text _ t _ _ => t

/-- Description of the screen a typed-data leaf confirmation shows. -/
def TypedScreen.descr : TypedScreen → List Char
  | .blob _ _ _ d _ => d
  | .text _ _ _ d => d

/-- Whether the screen went to the blob primitive. -/
def TypedScreen.isBlob : TypedScreen → Bool
  | .blob _ _ _ _ _ => true
  | .text _ _ _ _ => false

/-- Whether the screen went to the blob primitive with pagination enabled
(the text primitive has no pagination at all). -/
def TypedScreen.paginated : TypedScreen → Bool
  | .blob _ _ _ _ p => p
  | .text _ _ _ _ => false

/-- `confirm_typed_value` from `layout.py`, as the single screen it shows.
`get_type_name` and `decode_typed_data` are the external helpers from
`apps.ethereum.helpers`, taken as parameters; the Python default for
`array_index` is `None`. -/
def confirm_typed_value (get_type_name : EthereumFieldType → List Char)
    (decode_typed_data : List Nat → List Char → List Char)
    (name : List Char) (value : List Nat) (parent_objects : List (List Char))
    (field : EthereumFieldType) (array_index : Option Nat) : TypedScreen :=
  let type_name := get_type_name field
  let td : List Char × List Char :=
    match array_index with
    | some i =>
        (limit_str (List.intercalate ['.'] (parent_objects ++ [name])) 16,
         "[".data ++ natRepr i ++ "] (".data ++ type_name ++ ")".data)
    | none =>
        (limit_str (List.intercalate ['.'] parent_objects) 16,
         name ++ " (".data ++ type_name ++ ")".data)
  let data := decode_typed_data value type_name
  if field.data_type = EthereumDataType.ADDRESS ∨ field.data_type = EthereumDataType.BYTES then
    TypedScreen.blob "confirm_typed_value".data td.1 data td.2 true
  else
    TypedScreen.text "confirm_typed_value".data td.1 data td.2

/-- `trezor.ui` text styles used by the module. -/
inductive UiStyle
  | NORMAL | DEMIBOLD
  deriving DecidableEq

/-- One `should_show_more` call: its title, paragraphs, button text and
button-request type.  The operator's boolean answer is external. -/
structure ShowMorePrompt where
  title : List Char
  para : List (UiStyle × List Char)
  button : List Char
  br_type : List Char

/-- Modelled from the spec: the template substitution inside the external
`pluralize` primitive from `trezor.strings` (spec section 6; its source is
not under `src/`): each placeholder in the template is replaced, the count
placeholder by the rendered count and the plural placeholder by the noun;
other characters are kept. -/
def substTemplate : List Char → List Char → List Char → List Char
  | '{' :: 'c' :: 'o' :: 'u' :: 'n' :: 't' :: '}' :: rest, cnt, pl =>
      cnt ++ substTemplate rest cnt pl
  | '{' :: 'p' :: 'l' :: 'u' :: 'r' :: 'a' :: 'l' :: '}' :: rest, cnt, pl =>
      pl ++ substTemplate rest cnt pl
  | c :: rest, cnt, pl => c :: substTemplate rest cnt pl
  | [], _, _ => []

/-- Modelled from the spec: `format_plural(template, count, noun)` from
`trezor.strings` (spec section 6, `pluralize`; its source is not under
`src/`): substitutes the count and the noun into the template, the noun kept
singular exactly when `count = 1` and otherwise given the regular English
plural suffix `"s"` (the only noun this module passes is `"key"`). -/
def format_plural (template : List Char) (count : Nat) (noun : List Char) : List Char :=
  substTemplate template (natRepr count) (if count = 1 then noun else noun ++ ['s'])

/-- `should_show_struct` from `layout.py`: the `should_show_more` prompt it
builds.  The Python defaults `title = "Confirm struct"` and
`button_text = "Show full struct"` are explicit parameters here. -/
def should_show_struct (description : List Char)
    (data_members : List EthereumStructMember)
    (title : List Char) (button_text : List Char) : ShowMorePrompt :=
  ⟨title,
   [(UiStyle.DEMIBOLD, description),
    (UiStyle.NORMAL,
      format_plural "Contains {count} {plural}".data data_members.length "key".data),
    (UiStyle.NORMAL,
      List.intercalate ", ".data (data_members.map EthereumStructMember.name))],
   button_text,
   "should_show_struct".data⟩

/-- `trezor.enums.ButtonRequestType`, restricted to the member the embedded
functions use. -/
inductive ButtonRequestType
  | SignTx
  deriving DecidableEq

/-- One `confirm_output` call: recipient string, amount string, and
button-request code. -/
structure ConfirmOutput where
  address : List Char
  amount : List Char
  br_code : ButtonRequestType

/-- `require_confirm_tx` from `layout.py`; `address_from_bytes` is the
external helper from `apps.ethereum.helpers`, taken as a parameter.  Python
truthiness of `to_bytes` is non-emptiness. -/
def require_confirm_tx
    (address_from_bytes : List Nat → EthereumNetworkInfo → List Char)
    (to_bytes : List Nat) (value : Int) (network : EthereumNetworkInfo)
    (token : Option EthereumTokenInfo) : ConfirmOutput :=
  let to_str := if to_bytes ≠ [] then address_from_bytes to_bytes network
                else "new contract?".data
  ⟨to_str, format_ethereum_amount value token network, ButtonRequestType.SignTx⟩

/-- The two confirmation primitives the fee flows call: `confirm_amount`
(title, amount, description) and `confirm_total` (total_amount, fee_amount,
total_label, fee_label). -/
inductive FeeScreen
  | amount (title amt descr : List Char)
  | total (total_amount fee_amount total_label fee_label : List Char)

/-- `require_confirm_fee` from `layout.py` (legacy fee flow), as the
sequence of screens it shows. -/
def require_confirm_fee (spending gas_price gas_limit : Int)
    (network : EthereumNetworkInfo) (token : Option EthereumTokenInfo) :
    List FeeScreen :=
  [FeeScreen.amount "Confirm fee".data
     (format_ethereum_amount gas_price none network) "Gas price:".data,
   FeeScreen.total (format_ethereum_amount spending token network)
     (format_ethereum_amount (gas_price * gas_limit) none network)
     "Amount sent:".data "Maximum fee:".data]

/-- `require_confirm_eip1559_fee` from `layout.py`, as the sequence of
screens it shows. -/
def require_confirm_eip1559_fee
    (spending max_priority_fee max_gas_fee gas_limit : Int)
    (network : EthereumNetworkInfo) (token : Option EthereumTokenInfo) :
    List FeeScreen :=
  [FeeScreen.amount "Confirm fee".data
     (format_ethereum_amount max_gas_fee none network)
     "Maximum fee per gas".data,
   FeeScreen.amount "Confirm fee".data
     (format_ethereum_amount max_priority_fee none network)
     "Priority fee per gas".data,
   FeeScreen.total (format_ethereum_amount spending token network)
     (format_ethereum_amount (max_gas_fee * gas_limit) none network)
     "Amount sent:".data "Maximum fee:".data]

/-! ## Helper lemmas -/

lemma digitChar_isDigit {n : Nat} (h : n < 10) : (Nat.digitChar n).isDigit = true := by
  interval_cases n <;> decide

lemma natDigitsAux_isDigit :
    ∀ fuel n c, c ∈ natDigitsAux fuel n → c.isDigit = true := by
  intro fuel
  induction fuel with
  | zero => intro n c hc; simp [natDigitsAux] at hc
  | succ fuel ih =>
    intro n c hc
    simp only [natDigitsAux] at hc
    by_cases h : n < 10
    · rw [if_pos h] at hc
      simp only [List.mem_singleton] at hc
      subst hc
      exact digitChar_isDigit h
    · rw [if_neg h] at hc
      rcases List.mem_append.mp hc with h1 | h2
      · exact ih _ _ h1
      · simp only [List.mem_singleton] at h2
        subst h2
        exact digitChar_isDigit (Nat.mod_lt _ (by omega))

lemma natDigitsAux_ne_nil (fuel n : Nat) : natDigitsAux (fuel + 1) n ≠ [] := by
  simp only [natDigitsAux]
  by_cases h : n < 10
  · simp [h]
  · simp [h]

lemma natRepr_head_digit (n : Nat) :
    ∃ c cs, natRepr n = c :: cs ∧ c.isDigit = true := by
  unfold natRepr
  cases h : natDigitsAux (n + 1) n with
  | nil => exact absurd h (natDigitsAux_ne_nil n n)
  | cons c cs =>
    exact ⟨c, cs, rfl,
      natDigitsAux_isDigit (n + 1) n c (by rw [h]; exact List.mem_cons_self c cs)⟩

lemma format_amount_head_digit (value : Int) (decimals : Nat) (h : 0 ≤ value) :
    ∃ c cs, format_amount value decimals = c :: cs ∧ c.isDigit = true := by
  obtain ⟨c, cs, he, hc⟩ := natRepr_head_digit (value.natAbs / 10 ^ decimals)
  refine ⟨c,
    cs ++ (if dropTrailZeros (padZeros decimals (natRepr (value.natAbs % 10 ^ decimals))) = []
           then []
           else '.' :: dropTrailZeros (padZeros decimals (natRepr (value.natAbs % 10 ^ decimals)))),
    ?_, hc⟩
  unfold format_amount
  rw [if_neg (by omega), he]
  simp

lemma take_four_ne_wei (c : Char) (t : List Char) (hc : c.isDigit = true) :
    (c :: t).take 4 ≠ "Wei ".data := by
  intro h
  have h4 : (c :: t).take 4 = c :: t.take 3 := rfl
  have hw : "Wei ".data = 'W' :: "ei ".data := rfl
  rw [h4, hw] at h
  injection h with h1 _
  rw [h1] at hc
  exact absurd hc (by decide)

lemma takeLast_sixteen (s : List Char) : takeLast s 16 = s.drop (s.length - 16) := by
  unfold takeLast
  rw [if_neg (by omega)]

lemma limit_str_of_short (s : List Char) (lim : Nat) (h : s.length ≤ lim + 2) :
    limit_str s lim = s := by
  unfold limit_str
  exact if_pos h

lemma limit_str_of_long (s : List Char) (h : 16 + 2 < s.length) :
    limit_str s 16 = "..".data ++ s.drop (s.length - 16) := by
  unfold limit_str
  rw [if_neg (by omega), takeLast_sixteen]

lemma limit_str_length (s : List Char) (h : 16 + 2 < s.length) :
    (limit_str s 16).length = 18 := by
  rw [limit_str_of_long s h]
  have h2 : ("..".data).length = 2 := rfl
  rw [List.length_append, List.length_drop, h2]
  omega

lemma format_plural_contains_key (n : Nat) (noun : List Char) :
    format_plural "Contains {count} {plural}".data n noun =
      "Contains ".data ++ natRepr n ++ ' ' :: (if n = 1 then noun else noun ++ ['s']) := by
  unfold format_plural
  have h : ∀ cnt pl : List Char,
      substTemplate "Contains {count} {plural}".data cnt pl =
        "Contains ".data ++ (cnt ++ (' ' :: (pl ++ []))) := fun cnt pl => rfl
  rw [h]
  simp [List.append_assoc]

/-! ## Claims -/

/-- C1, counterexample: with decimals 18 and value 5 (which is below
`10^(18-9)`), the formatted output is `"5 Wei ETH"`, which does not start
with `"Wei "` — refuting the claim that the output starts with `"Wei "`. -/
theorem format_ethereum_amount_wei_not_at_start :
    (9 < 18 ∧ (5 : Int) < (10 : Int) ^ (18 - 9)) ∧
      (format_ethereum_amount 5 (some ⟨"ETH".data, 18⟩) ⟨"ETH".data⟩).take 4 ≠ "Wei ".data :=
  ⟨⟨by decide, by decide⟩, by decide⟩

/-- C1 (amended): for every currency descriptor with `decimals > 9` and
every `0 ≤ value < 10^(decimals-9)`, the formatted output has its symbol
suffix prefixed with `"Wei "` — the output is `format_amount value 0`
followed by a space, `"Wei "` and the symbol (so the output starts with the
rendered integer, not with `"Wei "`); for every `value ≥ 10^(decimals-9)`
with the same decimals, the output never starts with `"Wei "`. -/
theorem format_ethereum_amount_wei_suffix (symbol : List Char) (decimals : Nat)
    (value : Int) (network : EthereumNetworkInfo) (hd : 9 < decimals) :
    (0 ≤ value → value < (10 : Int) ^ (decimals - 9) →
      format_ethereum_amount value (some ⟨symbol, decimals⟩) network =
        format_amount value 0 ++ ' ' :: ("Wei ".data ++ symbol)) ∧
    ((10 : Int) ^ (decimals - 9) ≤ value →
      (format_ethereum_amount value (some ⟨symbol, decimals⟩) network).take 4 ≠ "Wei ".data) := by
  constructor
  · intro _ hlt
    simp only [format_ethereum_amount]
    rw [if_pos ⟨hd, hlt⟩]
  · intro hge
    simp only [format_ethereum_amount]
    rw [if_neg (fun hcon => absurd hcon.2 (not_lt.mpr hge))]
    have h0 : (0 : Int) ≤ value := le_trans (pow_nonneg (by norm_num) _) hge
    obtain ⟨c, cs, he, hc⟩ := format_amount_head_digit value decimals h0
    rw [he, List.cons_append]
    exact take_four_ne_wei c _ hc

/-- C1, witness: the amended theorem applied at decimals 18, values 5 and
`10^9`. -/
theorem format_ethereum_amount_wei_suffix_witness :
    format_ethereum_amount 5 (some ⟨"ETH".data, 18⟩) ⟨"ETH".data⟩ =
      format_amount 5 0 ++ ' ' :: ("Wei ".data ++ "ETH".data) ∧
    (format_ethereum_amount 1000000000 (some ⟨"ETH".data, 18⟩) ⟨"ETH".data⟩).take 4 ≠
      "Wei ".data :=
  ⟨(format_ethereum_amount_wei_suffix "ETH".data 18 5 ⟨"ETH".data⟩ (by decide)).1
      (by decide) (by decide),
   (format_ethereum_amount_wei_suffix "ETH".data 18 1000000000 ⟨"ETH".data⟩ (by decide)).2
      (by decide)⟩

/-- C2: a typed-data leaf goes to the paginated blob primitive exactly when
its declared data type is ADDRESS or BYTES, and to the plain text primitive
(no pagination) for every other data type. -/
theorem confirm_typed_value_pagination
    (get_type_name : EthereumFieldType → List Char)
    (decode_typed_data : List Nat → List Char → List Char)
    (name : List Char) (value : List Nat) (parents : List (List Char))
    (field : EthereumFieldType) (array_index : Option Nat) :
    (field.data_type = EthereumDataType.ADDRESS ∨ field.data_type = EthereumDataType.BYTES →
      (confirm_typed_value get_type_name decode_typed_data name value parents field
          array_index).isBlob = true ∧
      (confirm_typed_value get_type_name decode_typed_data name value parents field
          array_index).paginated = true) ∧
    (field.data_type ≠ EthereumDataType.ADDRESS ∧ field.data_type ≠ EthereumDataType.BYTES →
      (confirm_typed_value get_type_name decode_typed_data name value parents field
          array_index).isBlob = false ∧
      (confirm_typed_value get_type_name decode_typed_data name value parents field
          array_index).paginated = false) := by
  constructor
  · intro h
    simp only [confirm_typed_value]
    rw [if_pos h]
    exact ⟨rfl, rfl⟩
  · intro h
    simp only [confirm_typed_value]
    rw [if_neg (by tauto)]
    exact ⟨rfl, rfl⟩

/-- C2, witness: the theorem applied to an ADDRESS field and to a STRING
field. -/
theorem confirm_typed_value_pagination_witness :
    ((confirm_typed_value (fun _ => "address".data) (fun _ _ => "0xabc".data)
        "to".data [1] [] ⟨EthereumDataType.ADDRESS⟩ none).isBlob = true ∧
      (confirm_typed_value (fun _ => "address".data) (fun _ _ => "0xabc".data)
        "to".data [1] [] ⟨EthereumDataType.ADDRESS⟩ none).paginated = true) ∧
    ((confirm_typed_value (fun _ => "string".data) (fun _ _ => "hi".data)
        "msg".data [2] [] ⟨EthereumDataType.STRING⟩ none).isBlob = false ∧
      (confirm_typed_value (fun _ => "string".data) (fun _ _ => "hi".data)
        "msg".data [2] [] ⟨EthereumDataType.STRING⟩ none).paginated = false) :=
  ⟨(confirm_typed_value_pagination (fun _ => "address".data) (fun _ _ => "0xabc".data)
      "to".data [1] [] ⟨EthereumDataType.ADDRESS⟩ none).1 (Or.inl rfl),
   (confirm_typed_value_pagination (fun _ => "string".data) (fun _ _ => "hi".data)
      "msg".data [2] [] ⟨EthereumDataType.STRING⟩ none).2 (by decide)⟩

/-- C3, counterexample: formatting 5 with `{symbol: "ETH", decimals: 18}`
does not yield `"0 Wei ETH"` (it yields `"5 Wei ETH"`: the dust branch
renders the raw value with zero decimals). -/
theorem format_ethereum_amount_five_not_zero_wei :
    format_ethereum_amount 5 (some ⟨"ETH".data, 18⟩) ⟨"ETH".data⟩ ≠ "0 Wei ETH".data := by
  decide

/-- C3 (amended): formatting 5 with `{symbol: "ETH", decimals: 18}` yields
exactly `"5 Wei ETH"`, and formatting 2_000_000_000_000_000_000 with the
same currency yields exactly `"2 ETH"`. -/
theorem format_ethereum_amount_examples :
    format_ethereum_amount 5 (some ⟨"ETH".data, 18⟩) ⟨"ETH".data⟩ = "5 Wei ETH".data ∧
    format_ethereum_amount 2000000000000000000 (some ⟨"ETH".data, 18⟩) ⟨"ETH".data⟩ =
      "2 ETH".data :=
  ⟨by decide, by decide⟩

/-- C4: `limit_str s 16` returns `s` unchanged when `len s ≤ 18`, and
otherwise returns `".."` followed by exactly the last 16 characters of `s`,
so the output has length exactly 18 and its last 16 characters equal the
input's last 16 characters. -/
theorem limit_str_spec16 (s : List Char) :
    (s.length ≤ 18 → limit_str s 16 = s) ∧
    (18 < s.length →
      limit_str s 16 = "..".data ++ s.drop (s.length - 16) ∧
      (limit_str s 16).length = 18 ∧
      takeLast (limit_str s 16) 16 = takeLast s 16) := by
  constructor
  · intro h
    exact limit_str_of_short s 16 (by omega)
  · intro h
    refine ⟨limit_str_of_long s (by omega), limit_str_length s (by omega), ?_⟩
    rw [takeLast_sixteen, takeLast_sixteen, limit_str_length s (by omega),
      limit_str_of_long s (by omega)]
    exact List.drop_left "..".data _

/-- C4, witness: the theorem applied to a 3-character and a 20-character
string. -/
theorem limit_str_spec16_witness :
    limit_str "abc".data 16 = "abc".data ∧
      (limit_str "abcdefghijklmnopqrst".data 16).length = 18 :=
  ⟨(limit_str_spec16 "abc".data).1 (by decide),
   ((limit_str_spec16 "abcdefghijklmnopqrst".data).2 (by decide)).2.1⟩

/-- C5: `limit_str` at the default budget 16 is idempotent. -/
theorem limit_str_idempotent (s : List Char) :
    limit_str (limit_str s 16) 16 = limit_str s 16 := by
  by_cases h : s.length ≤ 16 + 2
  · rw [limit_str_of_short s 16 h]
    exact limit_str_of_short s 16 h
  · have h18 : (limit_str s 16).length = 18 := limit_str_length s (by omega)
    exact limit_str_of_short _ 16 (by omega)

/-- C6: for a typed-data leaf inside an array the title is the truncated
dot-joined path including the array field's name and the description is
`[index] (type-name)`; otherwise the title is the truncated dot-joined path
of the parent objects only and the description is `field-name (type-name)`. -/
theorem confirm_typed_value_title_descr
    (get_type_name : EthereumFieldType → List Char)
    (decode_typed_data : List Nat → List Char → List Char)
    (name : List Char) (value : List Nat) (parents : List (List Char))
    (field : EthereumFieldType) :
    (∀ i : Nat,
      (confirm_typed_value get_type_name decode_typed_data name value parents field
          (some i)).title =
        limit_str (List.intercalate ['.'] (parents ++ [name])) 16 ∧
      (confirm_typed_value get_type_name decode_typed_data name value parents field
          (some i)).descr =
        "[".data ++ natRepr i ++ "] (".data ++ get_type_name field ++ ")".data) ∧
    ((confirm_typed_value get_type_name decode_typed_data name value parents field
          none).title =
        limit_str (List.intercalate ['.'] parents) 16 ∧
      (confirm_typed_value get_type_name decode_typed_data name value parents field
          none).descr =
        name ++ " (".data ++ get_type_name field ++ ")".data) := by
  constructor
  · intro i
    simp only [confirm_typed_value]
    by_cases h : field.data_type = EthereumDataType.ADDRESS ∨
        field.data_type = EthereumDataType.BYTES
    · rw [if_pos h]
      exact ⟨rfl, rfl⟩
    · rw [if_neg h]
      exact ⟨rfl, rfl⟩
  · simp only [confirm_typed_value]
    by_cases h : field.data_type = EthereumDataType.ADDRESS ∨
        field.data_type = EthereumDataType.BYTES
    · rw [if_pos h]
      exact ⟨rfl, rfl⟩
    · rw [if_neg h]
      exact ⟨rfl, rfl⟩

/-- C7: the struct show-more prompt shows the bold description, then a line
`"Contains <n> key(s)"` (singular exactly when `n = 1`), then the
comma-joined member names, and asks its binary question under the given
button text. -/
theorem should_show_struct_prompt (description : List Char)
    (data_members : List EthereumStructMember)
    (title : List Char) (button_text : List Char) :
    (should_show_struct description data_members title button_text).para =
      [(UiStyle.DEMIBOLD, description),
       (UiStyle.NORMAL,
         "Contains ".data ++ natRepr data_members.length ++
           ' ' :: (if data_members.length = 1 then "key".data else "keys".data)),
       (UiStyle.NORMAL,
         List.intercalate ", ".data (data_members.map EthereumStructMember.name))] ∧
    (should_show_struct description data_members title button_text).button = button_text := by
  constructor
  · show [(UiStyle.DEMIBOLD, description),
          (UiStyle.NORMAL,
            format_plural "Contains {count} {plural}".data data_members.length "key".data),
          (UiStyle.NORMAL,
            List.intercalate ", ".data (data_members.map EthereumStructMember.name))] = _
    rw [format_plural_contains_key]
    by_cases h : data_members.length = 1 <;> simp [h]
  · rfl

/-- C8, counterexample: the formatter does not reject the negative value
`-1`; it returns the display string `"-1 Wei ETH"`. -/
theorem format_ethereum_amount_negative_example :
    format_ethereum_amount (-1) none ⟨"ETH".data⟩ = "-1 Wei ETH".data := by
  decide

/-- C8 (amended): `format_ethereum_amount` performs no negativity check: a
negative value is formatted and returned as a display string like any other
(with no token it always takes the Wei branch, since any negative value is
below the `10^9` threshold). -/
theorem format_ethereum_amount_negative_formats (value : Int)
    (network : EthereumNetworkInfo) (h : value < 0) :
    format_ethereum_amount value none network =
      format_amount value 0 ++ ' ' :: ("Wei ".data ++ network.symbol) := by
  simp only [format_ethereum_amount]
  rw [if_pos ⟨by omega, lt_of_lt_of_le h (by norm_num)⟩]

/-- C8, witness: the amended theorem applied at value `-1`. -/
theorem format_ethereum_amount_negative_formats_witness :
    format_ethereum_amount (-1) none ⟨"ETH".data⟩ =
      format_amount (-1) 0 ++ ' ' :: ("Wei ".data ++ "ETH".data) :=
  format_ethereum_amount_negative_formats (-1) ⟨"ETH".data⟩ (by decide)

/-- C9: the plain-transfer confirmation shows the literal recipient string
`"new contract?"` exactly when `to_bytes` is empty, and otherwise shows the
address rendered from `to_bytes`. -/
theorem require_confirm_tx_recipient
    (address_from_bytes : List Nat → EthereumNetworkInfo → List Char)
    (to_bytes : List Nat) (value : Int) (network : EthereumNetworkInfo)
    (token : Option EthereumTokenInfo) :
    (to_bytes = [] →
      (require_confirm_tx address_from_bytes to_bytes value network token).address =
        "new contract?".data) ∧
    (to_bytes ≠ [] →
      (require_confirm_tx address_from_bytes to_bytes value network token).address =
        address_from_bytes to_bytes network) := by
  constructor
  · intro h
    simp only [require_confirm_tx]
    rw [if_neg (fun hne => hne h)]
  · intro h
    simp only [require_confirm_tx]
    rw [if_pos h]

/-- C9, witness: the theorem applied to an empty and to a non-empty
recipient. -/
theorem require_confirm_tx_recipient_witness :
    (require_confirm_tx (fun _ _ => "0xdead".data) [] 0 ⟨"ETH".data⟩ none).address =
        "new contract?".data ∧
    (require_confirm_tx (fun _ _ => "0xdead".data) [1, 2] 0 ⟨"ETH".data⟩ none).address =
        "0xdead".data :=
  ⟨(require_confirm_tx_recipient (fun _ _ => "0xdead".data) [] 0 ⟨"ETH".data⟩ none).1 rfl,
   (require_confirm_tx_recipient (fun _ _ => "0xdead".data) [1, 2] 0 ⟨"ETH".data⟩ none).2
      (by decide)⟩

/-- C10: in both fee flows every gas/fee quantity (gas price, priority fee
per gas, maximum fee per gas, and the computed maximum fee gas×limit) is
formatted with the token descriptor `none` — always in the native network
currency — and only the spending amount is formatted with the supplied
token descriptor. -/
theorem confirm_fee_flows_native_currency
    (spending gas_price gas_limit max_priority_fee max_gas_fee : Int)
    (network : EthereumNetworkInfo) (token : Option EthereumTokenInfo) :
    require_confirm_fee spending gas_price gas_limit network token =
      [FeeScreen.amount "Confirm fee".data
         (format_ethereum_amount gas_price none network) "Gas price:".data,
       FeeScreen.total (format_ethereum_amount spending token network)
         (format_ethereum_amount (gas_price * gas_limit) none network)
         "Amount sent:".data "Maximum fee:".data] ∧
    require_confirm_eip1559_fee spending max_priority_fee max_gas_fee gas_limit network token =
      [FeeScreen.amount "Confirm fee".data
         (format_ethereum_amount max_gas_fee none network) "Maximum fee per gas".data,
       FeeScreen.amount "Confirm fee".data
         (format_ethereum_amount max_priority_fee none network) "Priority fee per gas".data,
       FeeScreen.total (format_ethereum_amount spending token network)
         (format_ethereum_amount (max_gas_fee * gas_limit) none network)
         "Amount sent:".data "Maximum fee:".data] :=
  ⟨rfl, rfl⟩
